import Mathlib

/-!
Shallow embedding of the `SystemDesc` derive implementation of
`src/amethyst_derive/src/system_desc.rs`, together with small models of the
`syn`, `proc_macro_roids` and `heck` library fragments the implementation
inspects.  Rust panics are modelled as `Except.error`; generated token
streams are modelled as small abstract-syntax values.  Line numbers in the
comments refer to `src/amethyst_derive/src/system_desc.rs`.
-/

namespace Amethyst

/- ## Models of the inspected `syn` data structures -/

/-- Models `syn::Lit` restricted to what the code distinguishes: string
literals versus every other literal kind. -/
inductive Lit where
  | str (value : String)
  | otherLit

mutual

/-- Models `syn::Meta` (syn 0.15): a bare word, a list `name(..)`, or a
`name = value` pair. -/
inductive Meta where
  | word (ident : String)
  | list (ident : String) (nested : List NestedMeta)
  | nameValue (ident : String) (lit : Lit)

/-- Models `syn::NestedMeta`. -/
inductive NestedMeta where
  | meta (m : Meta)
  | literal (l : Lit)

end

mutual

/-- Models `syn::Path`: its segments plus whether a trailing separator is
present (syn `Punctuated` distinguishes the two when producing pairs). -/
inductive Path where
  | mk (segments : List PathSegment) (trailing : Bool)

/-- Models `syn::PathSegment`. -/
inductive PathSegment where
  | mk (ident : String) (arguments : PathArguments)

/-- Models `syn::PathArguments`. -/
inductive PathArguments where
  | noArgs
  | angleBracketed (args : List GenericArgument) (trailing : Bool)
  | parenthesized

/-- Models `syn::GenericArgument` restricted to what the code matches on: a
type argument that is itself a path type, any other type argument, and every
non-type argument (lifetimes, bindings, constraints). -/
inductive GenericArgument where
  | tyPath (path : Path)
  | tyOther
  | otherArg

end

/-- Segment list of a path. -/
def Path.segments : Path → List PathSegment
  | .mk s _ => s

/-- Trailing-separator flag of a path. -/
def Path.trailing : Path → Bool
  | .mk _ t => t

/-- Ident of a path segment. -/
def PathSegment.ident : PathSegment → String
  | .mk i _ => i

/-- Arguments of a path segment. -/
def PathSegment.arguments : PathSegment → PathArguments
  | .mk _ a => a

/-- Models `syn::Type` restricted to what the code matches on: `Type::Path`
versus every other type form. -/
inductive RustType where
  | path (p : Path)
  | otherTy

/-- Models `syn::punctuated::Pair` as returned by `Punctuated::first` and
`Punctuated::last`: whether a separator follows the element. -/
inductive PunctPair (α : Type) where
  | punctuated (value : α)
  | endPair (value : α)

/-- Models `syn::Punctuated::first` (syn 0.15): the first element is an `End`
pair exactly when it is the only element and no separator follows it. -/
def punct_first {α : Type} (elems : List α) (trailing : Bool) : Option (PunctPair α) :=
  match elems with
  | [] => none
  | [a] => if trailing then some (.punctuated a) else some (.endPair a)
  | a :: _ :: _ => some (.punctuated a)

/-- Models `syn::Punctuated::last` (syn 0.15): the last element is an `End`
pair exactly when no trailing separator is present. -/
def punct_last {α : Type} (elems : List α) (trailing : Bool) : Option (PunctPair α) :=
  match elems.getLast? with
  | none => none
  | some a => some (if trailing then .punctuated a else .endPair a)

/-- Models `syn::Field`.  The attribute list carries the already-parsed metas
(attributes whose meta does not parse are dropped by the source before any
inspection). -/
structure Field where
  ident : Option String
  ty : RustType
  attrs : List Meta

/-- Models `syn::Fields`. -/
inductive Fields where
  | unit
  | unnamed (fields : List Field)
  | named (fields : List Field)

/-- The field list iterated by `ast.fields().iter()`. -/
def Fields.fieldList : Fields → List Field
  | .unit => []
  | .unnamed fs => fs
  | .named fs => fs

/-- Models `syn::DeriveInput` restricted to what the code inspects: the type
name, the (parsed) top-level attributes and the struct fields.  The generic
parameters are not modelled: the source only re-emits them verbatim. -/
structure DeriveInput where
  ident : String
  attrs : List Meta
  fields : Fields

/-- Models `proc_macro_roids::DeriveInputStructExt::is_named`. -/
def DeriveInput.is_named (ast : DeriveInput) : Bool :=
  match ast.fields with
  | .named _ => true
  | _ => false

/- ## String constants and error messages -/

def attr_system_desc : String := "system_desc"
def attr_name : String := "name"
def attr_insert : String := "insert"
def tag_skip : String := "skip"
def tag_event_channel_reader : String := "event_channel_reader"
def ident_phantom_data : String := "PhantomData"

/-- Stand-in text for the panic inside `proc_macro_roids` `type_name` when the
field type is not a path type (the exact text lives outside this repository). -/
def type_name_err : String := "Expected field type to be a path type."

/-- Stand-in text for the panic inside `proc_macro_roids` `type_name` when the
path has no segment (the exact text lives outside this repository). -/
def type_name_no_segment_err : String := "Expected field type to have a path segment."

/-- Panic message of lines 282-284, 334-337, 466-469, 491-495, 499-503. -/
def named_ident_err : String := "Expected named field to have an ident."

/-- Panic message of lines 386-391. -/
def unit_phantom_unreachable_err : String :=
  "`SystemDesc` will not have `Unit` fields when a `PhantomData` field exists."

/-- Panic message of lines 392-397. -/
def unit_passthrough_unreachable_err : String :=
  "`SystemDesc` will not have `Unit` fields when a `Passthrough` field exists."

/-- Panic message of lines 570-575. -/
def name_attr_len_err : String :=
  "Expected exactly one identifier for system_desc name attribute."

/-- Panic message of lines 585-590. -/
def name_attr_word_err : String := "Expected a single identifier."

/-- Panic message of line 592. -/
def name_attr_exist_err : String := "Expected one meta item to exist."

/-- Panic message of lines 650-654 and 669-674. -/
def insert_invalid_err : String := "Expected a literal string or single word."

/-- Panic message of lines 715-719. -/
def event_type_first_param_err (field_name : String) : String :=
  "Expected `" ++ field_name ++ "` first generic parameter to be a type."

/-- Panic message of line 721. -/
def event_type_params_err (field_name : String) : String :=
  "Expected `" ++ field_name ++ "` field to have type parameters."

/-- Panic message of line 724. -/
def event_type_last_segment_err (field_name : String) : String :=
  "Expected `" ++ field_name ++ "` field last segment to exist."

/-- Panic message of line 727. -/
def event_type_not_path_err (field_name : String) : String :=
  "Expected `" ++ field_name ++ "` field type to be Type Path."

/- ## Models of the inspected library functions -/

/-- Models `proc_macro_roids::FieldExt::contains_tag`: whether any field
attribute is a list named `ns` containing `tag` as a bare word. -/
def Field.contains_tag (field : Field) (ns tag : String) : Bool :=
  field.attrs.any fun meta =>
    match meta with
    | .list ident nested =>
      ident == ns && nested.any fun nested_meta =>
        match nested_meta with
        | .meta (.word w) => w == tag
        | _ => false
    | _ => false

/-- Models `proc_macro_roids::FieldExt::is_phantom_data`: the field type is a
path type whose last segment is named `PhantomData`. -/
def Field.is_phantom_data (field : Field) : Bool :=
  match field.ty with
  | .path p =>
    match p.segments.getLast? with
    | some seg => seg.ident == ident_phantom_data
    | none => false
  | .otherTy => false

/-- Models `proc_macro_roids::FieldExt::type_name`: the ident of the last
path segment of the field type; a panic in that crate otherwise. -/
def Field.type_name (field : Field) : Except String String :=
  match field.ty with
  | .path p =>
    match p.segments.getLast? with
    | some seg => .ok seg.ident
    | none => .error type_name_no_segment_err
  | .otherTy => .error type_name_err

/-- Models `heck::SnakeCase::to_snake_case` for ASCII camel-case identifiers:
an upper-case letter that follows a lower-case letter or a digit opens a new
word separated by an underscore, and all letters are lower-cased. -/
def to_snake_case_go : Option Char → List Char → List Char
  | _, [] => []
  | prev, c :: rest =>
    if c.isUpper then
      let sep :=
        match prev with
        | some p => if p.isLower || p.isDigit then ['_'] else []
        | none => []
      sep ++ c.toLower :: to_snake_case_go (some c) rest
    else c :: to_snake_case_go (some c) rest

/-- See `to_snake_case_go`. -/
def to_snake_case (s : String) : String :=
  String.mk (to_snake_case_go none s.data)

/-- `snake_case` (lines 742-745): the snake-cased name of the field type. -/
def snake_case (field : Field) : Except String String :=
  match field.type_name with
  | .ok type_name => .ok (to_snake_case type_name)
  | .error e => .error e

/- ## The classification record (lines 747-819) -/

/-- `FieldToCompute` (lines 814-818). -/
inductive FieldToCompute where
  | readerId (field : Field)

/-- `FieldVariant` (lines 789-812). -/
inductive FieldVariant where
  | skipped (field : Field)
  | compute (ftc : FieldToCompute)
  | phantomData (system_desc_field_index : Nat) (field : Field)
  | passthrough (system_desc_field_index : Nat) (field : Field)

/-- `FieldMapping` (lines 781-787). -/
structure FieldMapping where
  system_field_index : Nat
  field_variant : FieldVariant

/-- `SystemDescFields` (lines 760-766). -/
structure SystemDescFields where
  field_mappings : List FieldMapping
  fields : Fields

/-- The `Default` impl for `SystemDescFields` (lines 768-775). -/
def SystemDescFields.defaultValue : SystemDescFields :=
  ⟨[], .unit⟩

/-- `Context` (lines 747-757).  The three generics fields are not modelled:
the source only re-emits them verbatim. -/
structure Context where
  system_name : String
  system_desc_name : String
  system_desc_fields : SystemDescFields
  is_default : Bool
  is_self : Bool

/- ## Models of the generated token streams -/

/-- A constructor argument of the generated final construction call. -/
inductive Arg where
  | localVar (name : String)
  | selfIndex (index : Nat)
  | selfField (name : String)

/-- A field initializer of the generated named struct literal. -/
inductive FieldInit where
  | shorthand (field_name : String)
  | fromSelf (field_name : String)

/-- The generated final construction expression of the `build` function. -/
inductive ConstructorCall where
  | selfValue
  | unitPath (system_name : String)
  | newCall (system_name : String) (args : List Arg)
  | defaultCall (system_name : String)
  | structLiteral (system_name : String) (inits : List FieldInit)
  | emptyStructLiteral (system_name : String)

/-- A generated `let name = world.fetch_mut... .register_reader();`
statement (lines 729-733). -/
structure ComputeStmt where
  field_name : String
  event_type_path : Path

/-- A parameter of the generated descriptor constructor. -/
structure Param where
  name : String
  ty : RustType

/-- A positional initializer of the generated descriptor constructor body. -/
inductive CtorInit where
  | phantomDefault
  | param (name : String)

/-- A named initializer of the generated descriptor constructor body. -/
inductive NamedCtorInit where
  | phantomDefault (field_name : String)
  | shorthand (field_name : String)

/-- The generated descriptor constructor body (lines 248-301). -/
inductive CtorBody where
  | unitBody (system_desc_name : String)
  | tupleBody (system_desc_name : String) (inits : List CtorInit)
  | recordBody (system_desc_name : String) (inits : List NamedCtorInit)

/-- The generated descriptor constructor (lines 210-246): either a `Default`
impl with a parameterless `default` function, or an inherent impl with a
`new` function taking the listed parameters. -/
inductive Constructor where
  | defaultImpl (system_desc_name : String) (body : CtorBody)
  | newImpl (system_desc_name : String) (params : List Param) (body : CtorBody)

/-- The generated descriptor struct declaration (lines 114-141): its name and
its fields (shape included). -/
structure DescStruct where
  system_desc_name : String
  fields : Fields

/-- The overall generated impl (lines 87-111): the optional descriptor struct
declaration, the optional constructor, and the `build` function body, which
is always the `SystemData::setup` call, then the resource insertions, then
the reader-registration statements, then the final construction expression. -/
structure GeneratedImpl where
  system_desc_struct : Option DescStruct
  constructor : Option Constructor
  resource_insertions : List String
  field_computations : List ComputeStmt
  call : ConstructorCall

/-- A statement of the generated `build` body. -/
inductive BuildStmt where
  | setup
  | insertResource (expr : String)
  | computeReader (field_name : String) (event_type_path : Path)

/-- The generated `build` body as a statement list: lines 101-108. -/
def GeneratedImpl.build_stmts (g : GeneratedImpl) : List BuildStmt :=
  BuildStmt.setup ::
    (g.resource_insertions.map BuildStmt.insertResource ++
      g.field_computations.map fun c => BuildStmt.computeReader c.field_name c.event_type_path)

/- ## Classification: `system_desc_fields` (lines 143-208) -/

/-- The fold body of lines 148-181, with the enumeration index and the
mutable `system_desc_field_index` counter threaded explicitly. -/
def field_mappings_of : List Field → Nat → Nat → List FieldMapping
  | [], _, _ => []
  | field :: rest, system_field_index, system_desc_field_index =>
    if field.contains_tag attr_system_desc tag_skip then
      ⟨system_field_index, .skipped field⟩ ::
        field_mappings_of rest (system_field_index + 1) system_desc_field_index
    else if field.contains_tag attr_system_desc tag_event_channel_reader then
      ⟨system_field_index, .compute (.readerId field)⟩ ::
        field_mappings_of rest (system_field_index + 1) system_desc_field_index
    else if field.is_phantom_data then
      ⟨system_field_index, .phantomData system_desc_field_index field⟩ ::
        field_mappings_of rest (system_field_index + 1) (system_desc_field_index + 1)
    else
      ⟨system_field_index, .passthrough system_desc_field_index field⟩ ::
        field_mappings_of rest (system_field_index + 1) (system_desc_field_index + 1)

/-- The filter map of lines 184-191: the field carried by a `PhantomData` or
`Passthrough` variant, nothing for `Skipped` and `Compute`. -/
def FieldMapping.copy_field? (fm : FieldMapping) : Option Field :=
  match fm.field_variant with
  | .skipped _ => none
  | .compute _ => none
  | .phantomData _ field => some field
  | .passthrough _ field => some field

/-- `system_desc_fields` (lines 143-208). -/
def system_desc_fields (ast : DeriveInput) : SystemDescFields :=
  let field_mappings := field_mappings_of ast.fields.fieldList 0 0
  let fields_to_copy := field_mappings.filterMap FieldMapping.copy_field?
  let fields :=
    if fields_to_copy.isEmpty then Fields.unit
    else if ast.is_named then Fields.named fields_to_copy
    else Fields.unnamed fields_to_copy
  ⟨field_mappings, fields⟩

/- ## Descriptor struct and constructor synthesis -/

/-- `system_desc_struct` (lines 114-141): the declaration of the descriptor
struct, carrying the descriptor name and the filtered fields. -/
def system_desc_struct (context : Context) : DescStruct :=
  ⟨context.system_desc_name, context.system_desc_fields.fields⟩

/-- The parameter list of lines 312-327: unnamed non-phantom fields named by
the snake-cased type name. -/
def unnamed_constructor_params : List Field → Except String (List Param)
  | [] => .ok []
  | field :: rest =>
    if field.is_phantom_data then unnamed_constructor_params rest
    else
      match snake_case field with
      | .error e => .error e
      | .ok type_name_snake =>
        match unnamed_constructor_params rest with
        | .error e => .error e
        | .ok rest_params => .ok (⟨type_name_snake, field.ty⟩ :: rest_params)

/-- The parameter list of lines 328-346: named non-phantom fields named by
their own ident. -/
def named_constructor_params : List Field → Except String (List Param)
  | [] => .ok []
  | field :: rest =>
    if field.is_phantom_data then named_constructor_params rest
    else
      match field.ident with
      | none => .error named_ident_err
      | some field_name =>
        match named_constructor_params rest with
        | .error e => .error e
        | .ok rest_params => .ok (⟨field_name, field.ty⟩ :: rest_params)

/-- `impl_constructor_parameters` (lines 303-348). -/
def impl_constructor_parameters (context : Context) : Except String (List Param) :=
  match context.system_desc_fields.fields with
  | .unit => .ok []
  | .unnamed fields_unnamed => unnamed_constructor_params fields_unnamed
  | .named fields_named => named_constructor_params fields_named

/-- The initializer list of lines 258-270. -/
def unnamed_ctor_inits : List Field → Except String (List CtorInit)
  | [] => .ok []
  | field :: rest =>
    if field.is_phantom_data then
      match unnamed_ctor_inits rest with
      | .error e => .error e
      | .ok rest_inits => .ok (.phantomDefault :: rest_inits)
    else
      match snake_case field with
      | .error e => .error e
      | .ok type_name_snake =>
        match unnamed_ctor_inits rest with
        | .error e => .error e
        | .ok rest_inits => .ok (.param type_name_snake :: rest_inits)

/-- The initializer list of lines 277-292. -/
def named_ctor_inits : List Field → Except String (List NamedCtorInit)
  | [] => .ok []
  | field :: rest =>
    match field.ident with
    | none => .error named_ident_err
    | some field_name =>
      match named_ctor_inits rest with
      | .error e => .error e
      | .ok rest_inits =>
        if field.is_phantom_data then .ok (.phantomDefault field_name :: rest_inits)
        else .ok (.shorthand field_name :: rest_inits)

/-- `impl_constructor_body` (lines 248-301). -/
def impl_constructor_body (context : Context) : Except String CtorBody :=
  match context.system_desc_fields.fields with
  | .unit => .ok (.unitBody context.system_desc_name)
  | .unnamed fields_unnamed =>
    match unnamed_ctor_inits fields_unnamed with
    | .error e => .error e
    | .ok field_initializers => .ok (.tupleBody context.system_desc_name field_initializers)
  | .named fields_named =>
    match named_ctor_inits fields_named with
    | .error e => .error e
    | .ok field_initializers => .ok (.recordBody context.system_desc_name field_initializers)

/-- `impl_constructor` (lines 210-246). -/
def impl_constructor (context : Context) : Except String Constructor :=
  match impl_constructor_parameters context with
  | .error e => .error e
  | .ok constructor_parameters =>
    match impl_constructor_body context with
    | .error e => .error e
    | .ok constructor_body =>
      if context.is_default then
        .ok (.defaultImpl context.system_desc_name constructor_body)
      else
        .ok (.newImpl context.system_desc_name constructor_parameters constructor_body)

/- ## Final construction synthesis: `call_system_constructor` (lines 350-524) -/

/-- The `Fields::Unit` initializer list of lines 377-399: computed fields
named by their ident or, for unnamed fields, the snake-cased type name;
`PhantomData` and `Passthrough` variants are unreachable there. -/
def unit_field_initializers : List FieldMapping → Except String (List Arg)
  | [] => .ok []
  | fm :: rest =>
    match fm.field_variant with
    | .skipped _ => unit_field_initializers rest
    | .compute (.readerId field) =>
      let field_name :=
        match field.ident with
        | some i => Except.ok i
        | none => snake_case field
      match field_name with
      | .error e => .error e
      | .ok field_name =>
        match unit_field_initializers rest with
        | .error e => .error e
        | .ok rest_inits => .ok (.localVar field_name :: rest_inits)
    | .phantomData _ _ => .error unit_phantom_unreachable_err
    | .passthrough _ _ => .error unit_passthrough_unreachable_err

/-- The `Fields::Unnamed` initializer list of lines 418-435: computed fields
as locals named by the snake-cased type name, passthrough fields as
`self.index`, skipped and phantom positions omitted. -/
def unnamed_field_initializers : List FieldMapping → Except String (List Arg)
  | [] => .ok []
  | fm :: rest =>
    match fm.field_variant with
    | .skipped _ => unnamed_field_initializers rest
    | .compute (.readerId field) =>
      match snake_case field with
      | .error e => .error e
      | .ok field_name =>
        match unnamed_field_initializers rest with
        | .error e => .error e
        | .ok rest_inits => .ok (.localVar field_name :: rest_inits)
    | .phantomData _ _ => unnamed_field_initializers rest
    | .passthrough system_desc_field_index _ =>
      match unnamed_field_initializers rest with
      | .error e => .error e
      | .ok rest_inits => .ok (.selfIndex system_desc_field_index :: rest_inits)

/-- The `Fields::Named` `new`-call initializer list of lines 461-481:
computed fields as locals named by their ident, passthrough fields as
`self.ident`, skipped and phantom positions omitted. -/
def named_new_field_initializers : List FieldMapping → Except String (List Arg)
  | [] => .ok []
  | fm :: rest =>
    match fm.field_variant with
    | .skipped _ => named_new_field_initializers rest
    | .compute (.readerId field) =>
      match field.ident with
      | none => .error named_ident_err
      | some field_name =>
        match named_new_field_initializers rest with
        | .error e => .error e
        | .ok rest_inits => .ok (.localVar field_name :: rest_inits)
    | .phantomData _ _ => named_new_field_initializers rest
    | .passthrough _ field =>
      match field.ident with
      | none => .error named_ident_err
      | some field_name =>
        match named_new_field_initializers rest with
        | .error e => .error e
        | .ok rest_inits => .ok (.selfField field_name :: rest_inits)

/-- The `Fields::Named` struct-literal initializer list of lines 487-507:
computed fields as shorthand initializers, passthrough fields as
`ident: self.ident`, skipped and phantom positions omitted. -/
def named_record_field_initializers : List FieldMapping → Except String (List FieldInit)
  | [] => .ok []
  | fm :: rest =>
    match fm.field_variant with
    | .skipped _ => named_record_field_initializers rest
    | .compute (.readerId field) =>
      match field.ident with
      | none => .error named_ident_err
      | some field_name =>
        match named_record_field_initializers rest with
        | .error e => .error e
        | .ok rest_inits => .ok (.shorthand field_name :: rest_inits)
    | .phantomData _ _ => named_record_field_initializers rest
    | .passthrough _ field =>
      match field.ident with
      | none => .error named_ident_err
      | some field_name =>
        match named_record_field_initializers rest with
        | .error e => .error e
        | .ok rest_inits => .ok (.fromSelf field_name :: rest_inits)

/-- The `has_fields_to_compute` test of lines 369-375 and 410-416. -/
def FieldMapping.is_compute (fm : FieldMapping) : Bool :=
  match fm.field_variant with
  | .compute _ => true
  | _ => false

/-- The test of lines 445-451. -/
def FieldMapping.is_compute_or_passthrough (fm : FieldMapping) : Bool :=
  match fm.field_variant with
  | .compute _ => true
  | .passthrough _ _ => true
  | _ => false

/-- The test of lines 452-458. -/
def FieldMapping.is_skipped_or_phantom (fm : FieldMapping) : Bool :=
  match fm.field_variant with
  | .skipped _ => true
  | .phantomData _ _ => true
  | _ => false

/-- `call_system_constructor` (lines 350-524). -/
def call_system_constructor (context : Context) : Except String ConstructorCall :=
  let system_name := context.system_name
  let field_mappings := context.system_desc_fields.field_mappings
  match context.system_desc_fields.fields with
  | .unit =>
    if field_mappings.isEmpty then .ok (.unitPath system_name)
    else if field_mappings.any FieldMapping.is_compute then
      match unit_field_initializers field_mappings with
      | .error e => .error e
      | .ok field_initializers => .ok (.newCall system_name field_initializers)
    else .ok (.defaultCall system_name)
  | .unnamed _ =>
    if field_mappings.any FieldMapping.is_compute then
      match unnamed_field_initializers field_mappings with
      | .error e => .error e
      | .ok field_initializers => .ok (.newCall system_name field_initializers)
    else .ok (.defaultCall system_name)
  | .named _ =>
    let has_fields_to_compute_or_passthrough :=
      field_mappings.any FieldMapping.is_compute_or_passthrough
    let has_fields_skipped_or_phantom :=
      field_mappings.any FieldMapping.is_skipped_or_phantom
    if has_fields_to_compute_or_passthrough then
      if has_fields_skipped_or_phantom then
        match named_new_field_initializers field_mappings with
        | .error e => .error e
        | .ok field_initializers => .ok (.newCall system_name field_initializers)
      else
        match named_record_field_initializers field_mappings with
        | .error e => .error e
        | .ok field_initializers => .ok (.structLiteral system_name field_initializers)
    else if has_fields_skipped_or_phantom then .ok (.defaultCall system_name)
    else .ok (.emptyStructLiteral system_name)

/- ## Attribute extraction (lines 526-684) -/

/-- Lines 529-542 and 601-614: the nested lists of all attributes whose
parsed meta is a list named `system_desc`. -/
def system_desc_meta_lists (ast : DeriveInput) : List (List NestedMeta) :=
  ast.attrs.filterMap fun meta =>
    match meta with
    | .list ident nested => if ident == attr_system_desc then some nested else none
    | _ => none

/-- `system_desc_name` (lines 526-597).  The `map(..).next()` of the source
is lazy, so only the first `name(..)` group is ever inspected. -/
def system_desc_name (ast : DeriveInput) : Except String (Option String) :=
  let name_lists := (system_desc_meta_lists ast).flatMap fun nested =>
    nested.filterMap fun nested_meta =>
      match nested_meta with
      | .meta (.list ident inner) => if ident == attr_name then some inner else none
      | _ => none
  match name_lists.head? with
  | none => .ok none
  | some inner =>
    if inner.length != 1 then .error name_attr_len_err
    else
      match inner.head? with
      | some (.meta (.word ident)) => .ok (some ident)
      | some _ => .error name_attr_word_err
      | none => .error name_attr_exist_err

/-- The per-entry mapping of lines 641-677.  A string literal must parse as
an expression; the parse is modelled as succeeding, keeping the literal text
as the expression. -/
def insert_expr_tokens : List NestedMeta → Except String (List String)
  | [] => .ok []
  | nested_meta :: rest =>
    let expr : Except String String :=
      match nested_meta with
      | .meta (.word ident) => .ok ident
      | .meta _ => .error insert_invalid_err
      | .literal (.str lit_str) => .ok lit_str
      | .literal .otherLit => .error insert_invalid_err
    match expr with
    | .error e => .error e
    | .ok e =>
      match insert_expr_tokens rest with
      | .error e2 => .error e2
      | .ok rest_exprs => .ok (e :: rest_exprs)

/-- `resource_insertion_expressions` (lines 599-684): one `world.insert(..)`
statement per entry of every `insert(..)` group, in declaration order. -/
def resource_insertion_expressions (ast : DeriveInput) : Except String (List String) :=
  let insert_lists := (system_desc_meta_lists ast).flatMap fun nested =>
    nested.filterMap fun nested_meta =>
      match nested_meta with
      | .meta (.list ident inner) => if ident == attr_insert then some inner else none
      | _ => none
  insert_expr_tokens insert_lists.flatten

/- ## Reader-registration synthesis: `field_computation_expressions` -/

/-- The field name of line 696: the ident, or for unnamed fields the
snake-cased type name. -/
def compute_field_name (field : Field) : Except String String :=
  match field.ident with
  | some i => .ok i
  | none => snake_case field

/-- The nested matches of lines 697-728: the event type path is the first
angle-bracketed generic argument of the last path segment of the field type;
it must be the sole argument (an `End` pair) and itself a path type. -/
def event_type_path_of (field_name : String) (ty : RustType) : Except String Path :=
  match ty with
  | .path p =>
    match punct_last p.segments p.trailing with
    | some (.endPair path_segment) =>
      match path_segment.arguments with
      | .angleBracketed args args_trailing =>
        match punct_first args args_trailing with
        | some (.endPair (.tyPath path)) => .ok path
        | _ => .error (event_type_first_param_err field_name)
      | _ => .error (event_type_params_err field_name)
    | _ => .error (event_type_last_segment_err field_name)
  | .otherTy => .error (event_type_not_path_err field_name)

/-- The fold of lines 688-739: one reader-registration statement per
`Compute` variant, in order, nothing for the other variants. -/
def field_computations_fold : List FieldMapping → Except String (List ComputeStmt)
  | [] => .ok []
  | fm :: rest =>
    match fm.field_variant with
    | .compute (.readerId field) =>
      match compute_field_name field with
      | .error e => .error e
      | .ok field_name =>
        match event_type_path_of field_name field.ty with
        | .error e => .error e
        | .ok path =>
          match field_computations_fold rest with
          | .error e => .error e
          | .ok rest_stmts => .ok (⟨field_name, path⟩ :: rest_stmts)
    | _ => field_computations_fold rest

/-- `field_computation_expressions` (lines 686-740). -/
def field_computation_expressions (system_desc_fields : SystemDescFields) :
    Except String (List ComputeStmt) :=
  field_computations_fold system_desc_fields.field_mappings

/- ## Top level: `impl_system_desc` (lines 14-112) -/

/-- The test of lines 29-39: a passthrough variant. -/
def FieldMapping.is_passthrough (fm : FieldMapping) : Bool :=
  match fm.field_variant with
  | .passthrough _ _ => true
  | _ => false

/-- The non-self context of lines 22-54: the classified fields, with
`is_default` true exactly when no passthrough field exists. -/
def derive_context (ast : DeriveInput) (system_desc_name_value : String) : Context :=
  let sdf := system_desc_fields ast
  let is_default := (sdf.field_mappings.find? FieldMapping.is_passthrough).isNone
  ⟨ast.ident, system_desc_name_value, sdf, is_default, false⟩

/-- `impl_system_desc` (lines 14-112).  In the self mode (no `name(..)`
attribute) the descriptor struct, the constructor and the field-copy logic
are all skipped and the final construction is `self`; otherwise the three
synthesis functions run on the derived context.  The evaluation order of the
source (constructor and construction before insertions and computations)
is preserved so that the first panic wins. -/
def impl_system_desc (ast : DeriveInput) : Except String GeneratedImpl :=
  match system_desc_name ast with
  | .error e => .error e
  | .ok system_desc_name_opt =>
    let is_self := system_desc_name_opt.isNone
    let system_desc_name_value := system_desc_name_opt.getD ast.ident
    if is_self then
      match resource_insertion_expressions ast with
      | .error e => .error e
      | .ok resource_insertions =>
        match field_computation_expressions SystemDescFields.defaultValue with
        | .error e => .error e
        | .ok field_computations =>
          .ok ⟨none, none, resource_insertions, field_computations, .selfValue⟩
    else
      let context := derive_context ast system_desc_name_value
      match impl_constructor context with
      | .error e => .error e
      | .ok constructor =>
        match call_system_constructor context with
        | .error e => .error e
        | .ok call =>
          match resource_insertion_expressions ast with
          | .error e => .error e
          | .ok resource_insertions =>
            match field_computation_expressions context.system_desc_fields with
            | .error e => .error e
            | .ok field_computations =>
              .ok ⟨some (system_desc_struct context), some constructor,
                resource_insertions, field_computations, call⟩

/- ## Observations used by the verified properties -/

/-- The four classification categories of a field variant. -/
inductive FieldCategory where
  | skipped
  | computed
  | placeholder
  | passthrough

/-- The category of a field variant. -/
def FieldVariant.categoryOf : FieldVariant → FieldCategory
  | .skipped _ => .skipped
  | .compute _ => .computed
  | .phantomData _ _ => .placeholder
  | .passthrough _ _ => .passthrough

/-- The field carried by a field variant. -/
def FieldVariant.fieldOf : FieldVariant → Field
  | .skipped field => field
  | .compute (.readerId field) => field
  | .phantomData _ field => field
  | .passthrough _ field => field

/-- The descriptor position carried by a field variant: only `PhantomData`
and `Passthrough` variants carry one. -/
def FieldVariant.descIndex? : FieldVariant → Option Nat
  | .phantomData i _ => some i
  | .passthrough i _ => some i
  | _ => none

/-- Modelled from the spec wording of section 4.1, for comparison against the
code classification: the decision order per field, first match wins. -/
def spec_field_category (field : Field) : FieldCategory :=
  if field.contains_tag attr_system_desc tag_skip then .skipped
  else if field.contains_tag attr_system_desc tag_event_channel_reader then .computed
  else if field.is_phantom_data then .placeholder
  else .passthrough

/-- Whether a final construction is the named struct literal form. -/
def ConstructorCall.isStructLiteral : ConstructorCall → Bool
  | .structLiteral _ _ => true
  | _ => false

/-- Whether a final construction is the `default()` call form. -/
def ConstructorCall.isDefaultCall : ConstructorCall → Bool
  | .defaultCall _ => true
  | _ => false

/-- Whether a type has the shape required of an `event_channel_reader` field
by `event_type_path_of`: a path type without trailing separator whose last
segment has angle-bracketed arguments consisting of exactly one argument,
that argument being itself a path type. -/
def valid_event_reader_ty : RustType → Bool
  | .path p =>
    match punct_last p.segments p.trailing with
    | some (.endPair path_segment) =>
      match path_segment.arguments with
      | .angleBracketed args args_trailing =>
        match punct_first args args_trailing with
        | some (.endPair (.tyPath _)) => true
        | _ => false
      | _ => false
    | _ => false
  | .otherTy => false

/-- Whether reader-registration synthesis for a computed field succeeds: the
field name resolves and the declared type has the required shape. -/
def compute_ok (field : Field) : Bool :=
  (compute_field_name field).isOk && valid_event_reader_ty field.ty

/-- The string `n` occurs verbatim inside `e`. -/
def mentions (e n : String) : Prop :=
  ∃ pre post, e = pre ++ n ++ post

/-- The reader-registration statement generated for a computed field
mapping: bound to the resolved field name and parameterized by the inner
type path of the field type. -/
def compute_stmt_rel (fm : FieldMapping) (stmt : ComputeStmt) : Prop :=
  ∃ field, fm.field_variant = .compute (.readerId field) ∧
    compute_field_name field = .ok stmt.field_name ∧
    event_type_path_of stmt.field_name field.ty = .ok stmt.event_type_path

/-- The argument generated for a mapping in the named-shape positional `new`
call: the computed local for a computed field, `self.ident` for a
passthrough field. -/
def new_arg_rel (fm : FieldMapping) (arg : Arg) : Prop :=
  (∃ field field_name, fm.field_variant = .compute (.readerId field) ∧
    field.ident = some field_name ∧ arg = .localVar field_name) ∨
  (∃ i field field_name, fm.field_variant = .passthrough i field ∧
    field.ident = some field_name ∧ arg = .selfField field_name)

/-- The initializer generated for a mapping in the named-shape struct
literal: shorthand for a computed field, `ident: self.ident` for a
passthrough field. -/
def record_init_rel (fm : FieldMapping) (init : FieldInit) : Prop :=
  (∃ field field_name, fm.field_variant = .compute (.readerId field) ∧
    field.ident = some field_name ∧ init = .shorthand field_name) ∨
  (∃ i field field_name, fm.field_variant = .passthrough i field ∧
    field.ident = some field_name ∧ init = .fromSelf field_name)

/-- Characterization of the final construction for named descriptor shapes:
without passthrough or computed fields it is the `default()` call (some
skipped or phantom field present) or the empty struct literal (otherwise);
with at least one passthrough or computed field it is the positional `new`
call (some skipped or phantom field present) or the named struct literal
(otherwise), its arguments generated in source order from exactly the
passthrough and computed mappings. -/
def named_call_characterization (context : Context) : Prop :=
  let m := context.system_desc_fields.field_mappings
  (m.any FieldMapping.is_compute_or_passthrough = false →
    call_system_constructor context =
      .ok (if m.any FieldMapping.is_skipped_or_phantom then
        ConstructorCall.defaultCall context.system_name
      else ConstructorCall.emptyStructLiteral context.system_name))
  ∧ (m.any FieldMapping.is_compute_or_passthrough = true →
      ∀ c, call_system_constructor context = .ok c →
        (m.any FieldMapping.is_skipped_or_phantom = true →
          ∃ args, c = .newCall context.system_name args ∧
            List.Forall₂ new_arg_rel (m.filter FieldMapping.is_compute_or_passthrough) args)
        ∧ (m.any FieldMapping.is_skipped_or_phantom = false →
          ∃ inits, c = .structLiteral context.system_name inits ∧
            List.Forall₂ record_init_rel (m.filter FieldMapping.is_compute_or_passthrough) inits))

/-- Characterization of the descriptor constructor form: a `Default` impl
exactly when no passthrough field exists, otherwise a `new` function with
one parameter per passthrough field. -/
def constructor_shape_spec (ast : DeriveInput) (system_desc_name_value : String)
    (g : GeneratedImpl) : Prop :=
  let m := (system_desc_fields ast).field_mappings
  (m.countP FieldMapping.is_passthrough = 0 →
    ∃ body, g.constructor = some (.defaultImpl system_desc_name_value body))
  ∧ (0 < m.countP FieldMapping.is_passthrough →
    ∃ params body, g.constructor = some (.newImpl system_desc_name_value params body) ∧
      params.length = m.countP FieldMapping.is_passthrough)

/- ## Concrete inputs used by counterexamples and witnesses -/

/-- A plain `u32` field type. -/
def ty_u32 : RustType := .path (.mk [.mk ("u32") .noArgs] false)

/-- The `#[system_desc(name(..))]` attribute. -/
def name_attr_meta (system_desc_name_value : String) : Meta :=
  .list attr_system_desc [.meta (.list attr_name [.meta (.word system_desc_name_value)])]

/-- The `#[system_desc(skip)]` attribute. -/
def skip_attr_meta : Meta :=
  .list attr_system_desc [.meta (.word tag_skip)]

/-- The `#[system_desc(event_channel_reader)]` attribute. -/
def reader_attr_meta : Meta :=
  .list attr_system_desc [.meta (.word tag_event_channel_reader)]

/-- A `ReaderId<..>` type with the given generic arguments. -/
def ty_reader_id (args : List GenericArgument) (trailing : Bool) : RustType :=
  .path (.mk [.mk ("ReaderId") (.angleBracketed args trailing)] false)

/-- The path `UiEvent`. -/
def path_ui_event : Path := .mk [.mk ("UiEvent") .noArgs] false

/-- The path `AppEvent`. -/
def path_app_event : Path := .mk [.mk ("AppEvent") .noArgs] false

/-- C1 failing input: the single untagged `u32` field of a tuple struct. -/
def c1_field : Field := ⟨none, ty_u32, []⟩

/-- C1 failing input: `#[system_desc(name(MySystemDesc))] struct MySystem(u32);`. -/
def c1_ast : DeriveInput :=
  ⟨("MySystem"), [name_attr_meta ("MySystemDesc")], .unnamed [c1_field]⟩

/-- C3 witness input: a named struct with one event-channel-reader field. -/
def c3w_ast : DeriveInput :=
  ⟨("ReaderSystem"), [name_attr_meta ("ReaderSystemDesc")],
    .named [⟨some ("reader"), ty_reader_id [.tyPath path_ui_event] false, [reader_attr_meta]⟩]⟩

/-- C4 counterexample input: `#[system_desc(name(EmptySystemDesc))] struct EmptySystem;`. -/
def c4_ast : DeriveInput :=
  ⟨("EmptySystem"), [name_attr_meta ("EmptySystemDesc")], .unit⟩

/-- C4 witness input: a tuple struct whose only field is skipped. -/
def c4w_ast : DeriveInput :=
  ⟨("SkipSystem"), [name_attr_meta ("SkipSystemDesc")],
    .unnamed [⟨none, ty_u32, [skip_attr_meta]⟩]⟩

/-- C5 witness input: the skipped field of the scenario. -/
def c5w_field_skipped : Field := ⟨none, ty_u32, [skip_attr_meta]⟩

/-- C5 witness input: the ordinary value-typed field of the scenario. -/
def c5w_field_ordinary : Field := ⟨none, ty_u32, []⟩

/-- C6 witness input: a computed field of type `ReaderId<UiEvent>`. -/
def c6w_field : Field :=
  ⟨some ("reader"), ty_reader_id [.tyPath path_ui_event] false, [reader_attr_meta]⟩

/-- C6 witness input: classified fields with one skipped and one computed
mapping. -/
def c6w_sdf : SystemDescFields :=
  ⟨[⟨0, .skipped c5w_field_skipped⟩, ⟨1, .compute (.readerId c6w_field)⟩], .unit⟩

/-- C7 counterexample input: a named struct with one passthrough field `a`
and one skipped field `b`. -/
def c7_ast : DeriveInput :=
  ⟨("NamedSystem"), [name_attr_meta ("NamedSystemDesc")],
    .named [⟨some ("a"), ty_u32, []⟩, ⟨some ("b"), ty_u32, [skip_attr_meta]⟩]⟩

/-- C7 witness input: a named struct with one passthrough field only. -/
def c7w_ast : DeriveInput :=
  ⟨("PlainSystem"), [name_attr_meta ("PlainSystemDesc")],
    .named [⟨some ("a"), ty_u32, []⟩]⟩

/-- C8 witness input: a struct with no attributes at all. -/
def c8w_ast : DeriveInput :=
  ⟨("SelfSystem"), [], .named [⟨some ("a"), ty_u32, []⟩]⟩

/-- C9 counterexample input: a computed field `reader: ReaderId<UiEvent, AppEvent>`
whose declared type is a generic path type whose first angle-bracketed
argument is a type. -/
def c9_field : Field :=
  ⟨some ("reader"), ty_reader_id [.tyPath path_ui_event, .tyPath path_app_event] false,
    [reader_attr_meta]⟩

/-- C9 counterexample input: the classified fields holding only `c9_field`. -/
def c9_sdf : SystemDescFields :=
  ⟨[⟨0, .compute (.readerId c9_field)⟩], .unit⟩

/-- C9 witness input: classified fields holding one well-shaped computed
field. -/
def c9w_sdf : SystemDescFields :=
  ⟨[⟨0, .compute (.readerId c6w_field)⟩], .unit⟩

/-- C10 witness input: a named struct with one passthrough field. -/
def c10w_ast : DeriveInput :=
  ⟨("WitnessSystem"), [name_attr_meta ("WitnessSystemDesc")],
    .named [⟨some ("count"), ty_u32, []⟩]⟩

/-- C2 witness input: a tuple struct with one field of every category. -/
def c2w_ast : DeriveInput :=
  ⟨("MixedSystem"), [name_attr_meta ("MixedSystemDesc")],
    .unnamed [⟨none, ty_u32, [skip_attr_meta]⟩,
      ⟨none, ty_reader_id [.tyPath path_ui_event] false, [reader_attr_meta]⟩,
      ⟨none, .path (.mk [.mk (ident_phantom_data) .noArgs] false), []⟩,
      ⟨none, ty_u32, []⟩]⟩

/-- The descriptor position carried by a field mapping. -/
def FieldMapping.descIndex? (fm : FieldMapping) : Option Nat :=
  fm.field_variant.descIndex?

/-- Whether a field mapping carries a descriptor position. -/
def FieldMapping.has_desc_index (fm : FieldMapping) : Bool :=
  fm.descIndex?.isSome

/- ## Helper lemmas -/

theorem field_mappings_of_length (fields : List Field) (i j : Nat) :
    (field_mappings_of fields i j).length = fields.length := by
  induction fields generalizing i j with
  | nil => rfl
  | cons field rest ih =>
    unfold field_mappings_of
    split_ifs <;> simp [ih]

theorem system_desc_fields_field_mappings (ast : DeriveInput) :
    (system_desc_fields ast).field_mappings = field_mappings_of ast.fields.fieldList 0 0 := rfl

theorem desc_indices_range (fields : List Field) (i j : Nat) :
    (field_mappings_of fields i j).filterMap FieldMapping.descIndex? =
      List.range' j ((field_mappings_of fields i j).countP FieldMapping.has_desc_index) := by
  induction fields generalizing i j with
  | nil => rfl
  | cons field rest ih =>
    unfold field_mappings_of
    split_ifs with h1 h2 h3
    · rw [List.filterMap_cons_none (rfl :
          FieldMapping.descIndex? (FieldMapping.mk i (.skipped field)) = none),
        List.countP_cons_of_neg FieldMapping.has_desc_index _ (fun h => Bool.noConfusion h)]
      exact ih (i + 1) j
    · rw [List.filterMap_cons_none (rfl :
          FieldMapping.descIndex? (FieldMapping.mk i (.compute (.readerId field))) = none),
        List.countP_cons_of_neg FieldMapping.has_desc_index _ (fun h => Bool.noConfusion h)]
      exact ih (i + 1) j
    · rw [List.filterMap_cons_some (rfl :
          FieldMapping.descIndex? (FieldMapping.mk i (.phantomData j field)) = some j),
        List.countP_cons_of_pos FieldMapping.has_desc_index _ (rfl :
          FieldMapping.has_desc_index (FieldMapping.mk i (.phantomData j field)) = true),
        ih (i + 1) (j + 1), List.range'_succ]
    · rw [List.filterMap_cons_some (rfl :
          FieldMapping.descIndex? (FieldMapping.mk i (.passthrough j field)) = some j),
        List.countP_cons_of_pos FieldMapping.has_desc_index _ (rfl :
          FieldMapping.has_desc_index (FieldMapping.mk i (.passthrough j field)) = true),
        ih (i + 1) (j + 1), List.range'_succ]

/-- C1 (code bug evidence): on the failing input
`#[system_desc(name(MySystemDesc))] struct MySystem(u32);` — a positional
shape with one passthrough field and no computed field — the generated
descriptor stores the `u32` and its `new` constructor takes it as a
parameter, yet the final construction of `build` is `MySystem::default()`,
dropping the descriptor data instead of the positional constructor call the
claim describes. -/
theorem c1_positional_passthrough_uses_default :
    impl_system_desc c1_ast = .ok
      ⟨some ⟨("MySystemDesc"), .unnamed [c1_field]⟩,
        some (.newImpl ("MySystemDesc") [⟨("u32"), ty_u32⟩]
          (.tupleBody ("MySystemDesc") [.param ("u32")])),
        [], [], .defaultCall ("MySystem")⟩ := rfl

/-- C2: the classifier assigns descriptor positions only to placeholder and
passthrough variants, and the assigned positions, read in original source
order, are exactly `0, 1, 2, ...`: unique, densely packed from zero and
increasing. -/
theorem c2_descriptor_positions_dense (ast : DeriveInput) :
    (system_desc_fields ast).field_mappings.filterMap FieldMapping.descIndex? =
      List.range ((system_desc_fields ast).field_mappings.countP FieldMapping.has_desc_index)
    ∧ ∀ fm ∈ (system_desc_fields ast).field_mappings,
        (fm.has_desc_index = true ↔
          (fm.field_variant.categoryOf = .placeholder ∨
            fm.field_variant.categoryOf = .passthrough)) := by
  constructor
  · rw [List.range_eq_range', system_desc_fields_field_mappings]
    exact desc_indices_range ast.fields.fieldList 0 0
  · intro fm _
    cases hv : fm.field_variant <;>
      simp [FieldMapping.has_desc_index, FieldMapping.descIndex?, FieldVariant.descIndex?,
        FieldVariant.categoryOf, hv]

/-- C2 witness: the dense-position property evaluated on a tuple struct with
one field of every category. -/
theorem c2_descriptor_positions_dense_witness :
    (system_desc_fields c2w_ast).field_mappings.filterMap FieldMapping.descIndex? =
      List.range ((system_desc_fields c2w_ast).field_mappings.countP FieldMapping.has_desc_index)
    ∧ ∀ fm ∈ (system_desc_fields c2w_ast).field_mappings,
        (fm.has_desc_index = true ↔
          (fm.field_variant.categoryOf = .placeholder ∨
            fm.field_variant.categoryOf = .passthrough)) :=
  c2_descriptor_positions_dense c2w_ast

theorem field_mappings_of_isEmpty (fields : List Field) (i j : Nat) :
    (field_mappings_of fields i j).isEmpty = fields.isEmpty := by
  cases fields with
  | nil => rfl
  | cons f rest =>
    unfold field_mappings_of
    split_ifs <;> rfl

theorem system_desc_fields_fields (ast : DeriveInput) :
    (system_desc_fields ast).fields =
      (if ((field_mappings_of ast.fields.fieldList 0 0).filterMap
            FieldMapping.copy_field?).isEmpty then Fields.unit
        else if ast.is_named then
          Fields.named ((field_mappings_of ast.fields.fieldList 0 0).filterMap
            FieldMapping.copy_field?)
        else Fields.unnamed ((field_mappings_of ast.fields.fieldList 0 0).filterMap
          FieldMapping.copy_field?)) := rfl

theorem derive_context_system_name (ast : DeriveInput) (dn : String) :
    (derive_context ast dn).system_name = ast.ident := rfl

theorem derive_context_system_desc_fields (ast : DeriveInput) (dn : String) :
    (derive_context ast dn).system_desc_fields = system_desc_fields ast := rfl

theorem field_mappings_of_getElem (fields : List Field) (i j k : Nat)
    (h : k < fields.length) :
    ∃ fm, (field_mappings_of fields i j)[k]? = some fm ∧
      fm.system_field_index = i + k ∧
      ∃ f, fields[k]? = some f ∧
        fm.field_variant.categoryOf = spec_field_category f ∧
        fm.field_variant.fieldOf = f := by
  induction fields generalizing i j k with
  | nil => exact absurd h (by simp)
  | cons field rest ih =>
    cases k with
    | zero =>
      unfold field_mappings_of
      split_ifs with h1 h2 h3
      · exact ⟨⟨i, .skipped field⟩, by simp, (Nat.add_zero i).symm, field, by simp,
          by simp [spec_field_category, h1, FieldVariant.categoryOf], rfl⟩
      · exact ⟨⟨i, .compute (.readerId field)⟩, by simp, (Nat.add_zero i).symm, field, by simp,
          by simp [spec_field_category, h1, h2, FieldVariant.categoryOf], rfl⟩
      · exact ⟨⟨i, .phantomData j field⟩, by simp, (Nat.add_zero i).symm, field, by simp,
          by simp [spec_field_category, h1, h2, h3, FieldVariant.categoryOf], rfl⟩
      · exact ⟨⟨i, .passthrough j field⟩, by simp, (Nat.add_zero i).symm, field, by simp,
          by simp [spec_field_category, h1, h2, h3, FieldVariant.categoryOf], rfl⟩
    | succ k' =>
      have hk' : k' < rest.length := Nat.lt_of_succ_lt_succ h
      unfold field_mappings_of
      split_ifs with h1 h2 h3 <;>
      · obtain ⟨fm, hget, hsfi, f, hfget, hcat, hfield⟩ := ih (i + 1) _ k' hk'
        refine ⟨fm, by simpa using hget, by rw [hsfi]; omega, f, by simpa using hfget,
          hcat, hfield⟩

/-- C3: for every field of the input, the classifier emits exactly one
mapping, positioned at the field original index, whose category follows the
first-match-wins decision order: skip tag, then event-channel-reader tag,
then zero-size marker type, otherwise passthrough. -/
theorem c3_classification_decision_order (ast : DeriveInput) (k : Nat)
    (h : k < ast.fields.fieldList.length) :
    (system_desc_fields ast).field_mappings.length = ast.fields.fieldList.length
    ∧ ∃ fm, (system_desc_fields ast).field_mappings[k]? = some fm ∧
        fm.system_field_index = k ∧
        ∃ f, ast.fields.fieldList[k]? = some f ∧
          fm.field_variant.categoryOf = spec_field_category f ∧
          fm.field_variant.fieldOf = f := by
  rw [system_desc_fields_field_mappings]
  refine ⟨field_mappings_of_length _ 0 0, ?_⟩
  simpa using field_mappings_of_getElem ast.fields.fieldList 0 0 k h

/-- C3 witness: the decision-order property evaluated on a named struct with
one event-channel-reader field. -/
theorem c3_classification_decision_order_witness :
    0 < c3w_ast.fields.fieldList.length
    ∧ ((system_desc_fields c3w_ast).field_mappings.length = c3w_ast.fields.fieldList.length
      ∧ ∃ fm, (system_desc_fields c3w_ast).field_mappings[0]? = some fm ∧
          fm.system_field_index = 0 ∧
          ∃ f, c3w_ast.fields.fieldList[0]? = some f ∧
            fm.field_variant.categoryOf = spec_field_category f ∧
            fm.field_variant.fieldOf = f) :=
  ⟨Nat.zero_lt_one, c3_classification_decision_order c3w_ast 0 Nat.zero_lt_one⟩

/-- C4 counterexample: on the empty field set (a unit struct with a
descriptor name), the final construction is the plain unit-structure path
expression, not the default-constructor call the claim requires; the
premise of the claim (no passthrough, no computed field) holds there. -/
theorem c4_empty_field_set_unit_constructor :
    call_system_constructor (derive_context c4_ast ("EmptySystemDesc")) =
      .ok (.unitPath ("EmptySystem"))
    ∧ (ConstructorCall.unitPath ("EmptySystem")).isDefaultCall = false
    ∧ (system_desc_fields c4_ast).field_mappings.countP
        FieldMapping.is_compute_or_passthrough = 0 :=
  ⟨rfl, rfl, rfl⟩

theorem is_compute_imp_is_compute_or_passthrough (fm : FieldMapping)
    (h : fm.is_compute = true) : fm.is_compute_or_passthrough = true := by
  cases hv : fm.field_variant <;>
    simp [FieldMapping.is_compute, FieldMapping.is_compute_or_passthrough, hv] at h ⊢

/-- C4 (amended): with no passthrough and no computed field, the final
construction is the plain unit-structure expression when the field set is
empty, and the default-constructor call otherwise — never a positional or
named-argument construction. -/
theorem c4_construction_default_or_unit (ast : DeriveInput) (dn : String)
    (h : (system_desc_fields ast).field_mappings.countP
      FieldMapping.is_compute_or_passthrough = 0) :
    call_system_constructor (derive_context ast dn) =
      .ok (if ast.fields.fieldList.isEmpty then ConstructorCall.unitPath ast.ident
        else ConstructorCall.defaultCall ast.ident) := by
  have hall : ∀ fm ∈ (system_desc_fields ast).field_mappings,
      fm.is_compute_or_passthrough = false := by
    intro fm hm
    simpa using List.countP_eq_zero.mp h fm hm
  have hanyPC : (system_desc_fields ast).field_mappings.any
      FieldMapping.is_compute_or_passthrough = false := by
    rw [Bool.eq_false_iff]
    intro hc
    obtain ⟨fm, hm, hfm⟩ := List.any_eq_true.mp hc
    rw [hall fm hm] at hfm
    exact Bool.noConfusion hfm
  have hanyC : (system_desc_fields ast).field_mappings.any FieldMapping.is_compute = false := by
    rw [Bool.eq_false_iff]
    intro hc
    obtain ⟨fm, hm, hfm⟩ := List.any_eq_true.mp hc
    have hcp := is_compute_imp_is_compute_or_passthrough fm hfm
    rw [hall fm hm] at hcp
    exact Bool.noConfusion hcp
  have hmapl : (system_desc_fields ast).field_mappings.isEmpty = ast.fields.fieldList.isEmpty := by
    rw [system_desc_fields_field_mappings]
    exact field_mappings_of_isEmpty ast.fields.fieldList 0 0
  unfold call_system_constructor
  rw [derive_context_system_name, derive_context_system_desc_fields,
    system_desc_fields_fields]
  by_cases hftc : ((field_mappings_of ast.fields.fieldList 0 0).filterMap
      FieldMapping.copy_field?).isEmpty = true
  · rw [if_pos hftc]
    simp only []
    rw [hmapl]
    by_cases hfl : ast.fields.fieldList.isEmpty = true
    · rw [if_pos hfl, if_pos hfl]
    · rw [if_neg hfl, hanyC]
      simp [hfl]
  · have hex : ∃ fm ∈ (system_desc_fields ast).field_mappings,
        fm.is_skipped_or_phantom = true := by
      have hne : (field_mappings_of ast.fields.fieldList 0 0).filterMap
          FieldMapping.copy_field? ≠ [] := by
        intro hnil
        rw [hnil] at hftc
        exact hftc rfl
      have hnot : ¬∀ fm ∈ field_mappings_of ast.fields.fieldList 0 0,
          FieldMapping.copy_field? fm = none := fun hallnone =>
        hne (List.filterMap_eq_nil_iff.mpr hallnone)
      push_neg at hnot
      obtain ⟨fm, hm, hsome⟩ := hnot
      refine ⟨fm, by rw [system_desc_fields_field_mappings]; exact hm, ?_⟩
      have hnotcp : fm.is_compute_or_passthrough = false := by
        apply hall
        rw [system_desc_fields_field_mappings]
        exact hm
      cases hv : fm.field_variant with
      | skipped f => simp [FieldMapping.is_skipped_or_phantom, hv]
      | compute c =>
        rw [FieldMapping.is_compute_or_passthrough, hv] at hnotcp
        exact Bool.noConfusion hnotcp
      | phantomData i f => simp [FieldMapping.is_skipped_or_phantom, hv]
      | passthrough i f =>
        rw [FieldMapping.is_compute_or_passthrough, hv] at hnotcp
        exact Bool.noConfusion hnotcp
    have hanySP : (system_desc_fields ast).field_mappings.any
        FieldMapping.is_skipped_or_phantom = true := List.any_eq_true.mpr hex
    have hflne : ast.fields.fieldList.isEmpty = false := by
      rw [← hmapl, Bool.eq_false_iff]
      intro hie
      apply hftc
      rw [List.isEmpty_iff] at hie
      rw [system_desc_fields_field_mappings] at hie
      rw [hie]
      rfl
    rw [if_neg (by simp [hftc])]
    by_cases hnamed : ast.is_named = true
    · rw [if_pos hnamed]
      simp only []
      rw [hanyPC, hanySP]
      simp [hflne]
    · rw [if_neg hnamed]
      simp only []
      rw [hanyC]
      simp [hflne]

/-- C4 witness: the amended construction rule evaluated on a tuple struct
whose only field is skipped. -/
theorem c4_construction_default_or_unit_witness :
    (system_desc_fields c4w_ast).field_mappings.countP
      FieldMapping.is_compute_or_passthrough = 0
    ∧ call_system_constructor (derive_context c4w_ast ("SkipSystemDesc")) =
        .ok (if c4w_ast.fields.fieldList.isEmpty then ConstructorCall.unitPath c4w_ast.ident
          else ConstructorCall.defaultCall c4w_ast.ident) :=
  ⟨rfl, c4_construction_default_or_unit c4w_ast ("SkipSystemDesc") rfl⟩

/-- C5: for a positional-shape structure with exactly two fields, the first
tagged skip and the second an ordinary value-typed field, the generated
descriptor has exactly one field (the ordinary one), the generated
constructor is a `new` function with exactly one parameter, and the
generated `build` ends in the default-value constructor call, passing none
of the descriptor data. -/
theorem c5_skip_plus_passthrough_scenario (f0 f1 : Field) (system_name dn tn : String)
    (h0 : f0.contains_tag attr_system_desc tag_skip = true)
    (h1skip : f1.contains_tag attr_system_desc tag_skip = false)
    (h1reader : f1.contains_tag attr_system_desc tag_event_channel_reader = false)
    (h1pd : f1.is_phantom_data = false)
    (h1ty : f1.type_name = .ok tn) :
    impl_system_desc ⟨system_name, [name_attr_meta dn], .unnamed [f0, f1]⟩ = .ok
      ⟨some ⟨dn, .unnamed [f1]⟩,
        some (.newImpl dn [⟨to_snake_case tn, f1.ty⟩]
          (.tupleBody dn [.param (to_snake_case tn)])),
        [], [], .defaultCall system_name⟩ := by
  have h_mappings : field_mappings_of [f0, f1] 0 0 =
      [⟨0, .skipped f0⟩, ⟨1, .passthrough 0 f1⟩] := by
    unfold field_mappings_of
    rw [if_pos h0]
    unfold field_mappings_of
    rw [if_neg (by simp [h1skip]), if_neg (by simp [h1reader]), if_neg (by simp [h1pd])]
    rfl
  have h_sdf : system_desc_fields ⟨system_name, [name_attr_meta dn], .unnamed [f0, f1]⟩ =
      ⟨[⟨0, .skipped f0⟩, ⟨1, .passthrough 0 f1⟩], .unnamed [f1]⟩ := by
    unfold system_desc_fields
    rw [show (Fields.unnamed [f0, f1]).fieldList = [f0, f1] from rfl, h_mappings]
    rfl
  have h_ctx : derive_context ⟨system_name, [name_attr_meta dn], .unnamed [f0, f1]⟩ dn =
      ⟨system_name, dn, ⟨[⟨0, .skipped f0⟩, ⟨1, .passthrough 0 f1⟩], .unnamed [f1]⟩,
        false, false⟩ := by
    unfold derive_context
    rw [h_sdf]
    rfl
  have h_ctor : impl_constructor
      ⟨system_name, dn, ⟨[⟨0, .skipped f0⟩, ⟨1, .passthrough 0 f1⟩], .unnamed [f1]⟩,
        false, false⟩ =
      .ok (.newImpl dn [⟨to_snake_case tn, f1.ty⟩]
        (.tupleBody dn [.param (to_snake_case tn)])) := by
    unfold impl_constructor impl_constructor_parameters impl_constructor_body
    simp only [unnamed_constructor_params, unnamed_ctor_inits, snake_case, h1ty, h1pd,
      Bool.false_eq_true, if_false]
  have h_call : call_system_constructor
      ⟨system_name, dn, ⟨[⟨0, .skipped f0⟩, ⟨1, .passthrough 0 f1⟩], .unnamed [f1]⟩,
        false, false⟩ = .ok (.defaultCall system_name) := rfl
  unfold impl_system_desc
  rw [show system_desc_name ⟨system_name, [name_attr_meta dn], .unnamed [f0, f1]⟩ =
    .ok (some dn) from rfl]
  simp only [Option.isNone_some, Bool.false_eq_true, if_false, Option.getD_some]
  rw [h_ctx, h_ctor, h_call]
  rw [show resource_insertion_expressions
    ⟨system_name, [name_attr_meta dn], .unnamed [f0, f1]⟩ = .ok [] from rfl]
  rfl

/-- C5 witness: the scenario evaluated with a skipped `u32` field and an
ordinary `u32` field. -/
theorem c5_skip_plus_passthrough_scenario_witness :
    c5w_field_skipped.contains_tag attr_system_desc tag_skip = true
    ∧ c5w_field_ordinary.is_phantom_data = false
    ∧ impl_system_desc ⟨("ScenarioSystem"), [name_attr_meta ("ScenarioSystemDesc")],
        .unnamed [c5w_field_skipped, c5w_field_ordinary]⟩ = .ok
      ⟨some ⟨("ScenarioSystemDesc"), .unnamed [c5w_field_ordinary]⟩,
        some (.newImpl ("ScenarioSystemDesc") [⟨to_snake_case ("u32"), c5w_field_ordinary.ty⟩]
          (.tupleBody ("ScenarioSystemDesc") [.param (to_snake_case ("u32"))])),
        [], [], .defaultCall ("ScenarioSystem")⟩ :=
  ⟨rfl, rfl, c5_skip_plus_passthrough_scenario c5w_field_skipped c5w_field_ordinary
    ("ScenarioSystem") ("ScenarioSystemDesc") ("u32") rfl rfl rfl rfl rfl⟩

theorem field_computations_fold_forall₂ (m : List FieldMapping)
    (stmts : List ComputeStmt) (h : field_computations_fold m = .ok stmts) :
    List.Forall₂ compute_stmt_rel (m.filter FieldMapping.is_compute) stmts := by
  induction m generalizing stmts with
  | nil =>
    injection h with h'
    subst h'
    exact List.Forall₂.nil
  | cons fm rest ih =>
    unfold field_computations_fold at h
    split at h
    next _ field heq =>
      split at h
      next _ e hn => exact Except.noConfusion h
      next _ field_name hn =>
        split at h
        next _ e hp => exact Except.noConfusion h
        next _ path hp =>
          split at h
          next _ e hr => exact Except.noConfusion h
          next _ rest_stmts hr =>
            injection h with h'
            subst h'
            rw [List.filter_cons_of_pos (by simp [FieldMapping.is_compute, heq])]
            exact List.Forall₂.cons ⟨field, heq, hn, hp⟩ (ih rest_stmts hr)
    next _ hne =>
      have hic : fm.is_compute = false := by
        unfold FieldMapping.is_compute
        cases hv : fm.field_variant with
        | compute ftc =>
          cases ftc with
          | readerId f => exact absurd hv (fun hh => hne f hh)
        | skipped f => rfl
        | phantomData i f => rfl
        | passthrough i f => rfl
      rw [List.filter_cons_of_neg (by simp [hic])]
      exact ih stmts h

/-- C6: whenever the reader-registration synthesis succeeds, it emits, in
source order, exactly one fetch-and-register statement per computed field —
bound to the field resolved name and parameterized by the inner type path of
the field declared type — and no statement for any non-computed field. -/
theorem c6_reader_registrations_match_computed_fields (sdf : SystemDescFields)
    (stmts : List ComputeStmt) (h : field_computation_expressions sdf = .ok stmts) :
    List.Forall₂ compute_stmt_rel (sdf.field_mappings.filter FieldMapping.is_compute) stmts :=
  field_computations_fold_forall₂ sdf.field_mappings stmts h

/-- C6 witness: the correspondence evaluated on classified fields holding
one skipped and one computed `ReaderId` field. -/
theorem c6_reader_registrations_match_computed_fields_witness :
    field_computation_expressions c6w_sdf = .ok [⟨("reader"), path_ui_event⟩]
    ∧ List.Forall₂ compute_stmt_rel (c6w_sdf.field_mappings.filter FieldMapping.is_compute)
        [⟨("reader"), path_ui_event⟩] :=
  ⟨rfl, c6_reader_registrations_match_computed_fields c6w_sdf [⟨("reader"), path_ui_event⟩] rfl⟩

/-- C7 counterexample: a named struct with one passthrough field `a` and one
skipped field `b` has at least one passthrough field, yet the final
construction is the positional call `NamedSystem::new(self.a)` — neither a
named-field constructor nor a parameterless default constructor. -/
theorem c7_named_shape_positional_new_counterexample :
    call_system_constructor (derive_context c7_ast ("NamedSystemDesc")) =
      .ok (.newCall ("NamedSystem") [.selfField ("a")])
    ∧ (ConstructorCall.newCall ("NamedSystem") [.selfField ("a")]).isStructLiteral = false
    ∧ (ConstructorCall.newCall ("NamedSystem") [.selfField ("a")]).isDefaultCall = false
    ∧ (system_desc_fields c7_ast).field_mappings.any
        FieldMapping.is_compute_or_passthrough = true :=
  ⟨rfl, rfl, rfl, rfl⟩

theorem named_new_field_initializers_forall₂ (m : List FieldMapping) (args : List Arg)
    (h : named_new_field_initializers m = .ok args) :
    List.Forall₂ new_arg_rel (m.filter FieldMapping.is_compute_or_passthrough) args := by
  induction m generalizing args with
  | nil =>
    injection h with h'
    subst h'
    exact List.Forall₂.nil
  | cons fm rest ih =>
    unfold named_new_field_initializers at h
    split at h
    next _ _ heq =>
      rw [List.filter_cons_of_neg (by simp [FieldMapping.is_compute_or_passthrough, heq])]
      exact ih args h
    next _ field heq =>
      split at h
      next hident => exact Except.noConfusion h
      next field_name hident =>
        split at h
        next _ e hr => exact Except.noConfusion h
        next _ rest_inits hr =>
          injection h with h'
          subst h'
          rw [List.filter_cons_of_pos
            (by simp [FieldMapping.is_compute_or_passthrough, heq])]
          exact List.Forall₂.cons (Or.inl ⟨field, field_name, heq, hident, rfl⟩)
            (ih rest_inits hr)
    next _ _ _ heq =>
      rw [List.filter_cons_of_neg (by simp [FieldMapping.is_compute_or_passthrough, heq])]
      exact ih args h
    next _ i field heq =>
      split at h
      next hident => exact Except.noConfusion h
      next field_name hident =>
        split at h
        next _ e hr => exact Except.noConfusion h
        next _ rest_inits hr =>
          injection h with h'
          subst h'
          rw [List.filter_cons_of_pos
            (by simp [FieldMapping.is_compute_or_passthrough, heq])]
          exact List.Forall₂.cons (Or.inr ⟨i, field, field_name, heq, hident, rfl⟩)
            (ih rest_inits hr)

theorem named_record_field_initializers_forall₂ (m : List FieldMapping)
    (inits : List FieldInit) (h : named_record_field_initializers m = .ok inits) :
    List.Forall₂ record_init_rel (m.filter FieldMapping.is_compute_or_passthrough) inits := by
  induction m generalizing inits with
  | nil =>
    injection h with h'
    subst h'
    exact List.Forall₂.nil
  | cons fm rest ih =>
    unfold named_record_field_initializers at h
    split at h
    next _ _ heq =>
      rw [List.filter_cons_of_neg (by simp [FieldMapping.is_compute_or_passthrough, heq])]
      exact ih inits h
    next _ field heq =>
      split at h
      next hident => exact Except.noConfusion h
      next field_name hident =>
        split at h
        next _ e hr => exact Except.noConfusion h
        next _ rest_inits hr =>
          injection h with h'
          subst h'
          rw [List.filter_cons_of_pos
            (by simp [FieldMapping.is_compute_or_passthrough, heq])]
          exact List.Forall₂.cons (Or.inl ⟨field, field_name, heq, hident, rfl⟩)
            (ih rest_inits hr)
    next _ _ _ heq =>
      rw [List.filter_cons_of_neg (by simp [FieldMapping.is_compute_or_passthrough, heq])]
      exact ih inits h
    next _ i field heq =>
      split at h
      next hident => exact Except.noConfusion h
      next field_name hident =>
        split at h
        next _ e hr => exact Except.noConfusion h
        next _ rest_inits hr =>
          injection h with h'
          subst h'
          rw [List.filter_cons_of_pos
            (by simp [FieldMapping.is_compute_or_passthrough, heq])]
          exact List.Forall₂.cons (Or.inr ⟨i, field, field_name, heq, hident, rfl⟩)
            (ih rest_inits hr)

/-- C7 (amended): for named descriptor shapes the final construction is the
parameterless default call or the empty named literal when no passthrough or
computed field exists (depending on whether a skipped or phantom field
exists), and otherwise a positional `new` call (when a skipped or phantom
field also exists) or a named struct literal (when not), whose arguments
come, in source order, from exactly the passthrough fields (via the
descriptor) and the computed fields (via their locals), by field name. -/
theorem c7_named_shape_construction_forms (context : Context) (fs : List Field)
    (h : context.system_desc_fields.fields = .named fs) :
    named_call_characterization context := by
  unfold named_call_characterization
  refine ⟨?_, ?_⟩
  · intro hcp
    unfold call_system_constructor
    rw [h]
    simp only []
    rw [hcp]
    simp only [Bool.false_eq_true, if_false]
    split <;> rfl
  · intro hcp c hc
    unfold call_system_constructor at hc
    rw [h] at hc
    simp only [] at hc
    rw [hcp] at hc
    simp only [if_true] at hc
    constructor
    · intro hsp
      rw [hsp] at hc
      simp only [if_true] at hc
      split at hc
      next e heq => exact Except.noConfusion hc
      next args heq =>
        injection hc with hc'
        subst hc'
        exact ⟨args, rfl, named_new_field_initializers_forall₂ _ args heq⟩
    · intro hsp
      rw [hsp] at hc
      simp only [Bool.false_eq_true, if_false] at hc
      split at hc
      next e heq => exact Except.noConfusion hc
      next inits heq =>
        injection hc with hc'
        subst hc'
        exact ⟨inits, rfl, named_record_field_initializers_forall₂ _ inits heq⟩

/-- C7 witness: the named-shape characterization evaluated on a named struct
with one passthrough field. -/
theorem c7_named_shape_construction_forms_witness :
    (derive_context c7w_ast ("PlainSystemDesc")).system_desc_fields.fields =
      Fields.named [⟨some ("a"), ty_u32, []⟩]
    ∧ named_call_characterization (derive_context c7w_ast ("PlainSystemDesc")) :=
  ⟨rfl, c7_named_shape_construction_forms (derive_context c7w_ast ("PlainSystemDesc"))
    [⟨some ("a"), ty_u32, []⟩] rfl⟩

/-- C8: with no descriptor-name annotation (identity mode), no descriptor
struct and no constructor are generated, no reader-registration statement is
emitted, and the generated `build` performs the setup call and the declared
resource insertions before returning its input `self` unchanged. -/
theorem c8_identity_mode_build_returns_self (ast : DeriveInput) (ins : List String)
    (hname : system_desc_name ast = .ok none)
    (hins : resource_insertion_expressions ast = .ok ins) :
    impl_system_desc ast = .ok ⟨none, none, ins, [], .selfValue⟩
    ∧ (GeneratedImpl.mk none none ins [] .selfValue).build_stmts =
        BuildStmt.setup :: ins.map BuildStmt.insertResource := by
  constructor
  · unfold impl_system_desc
    rw [hname]
    simp only [Option.isNone_none, if_true]
    rw [hins]
    rfl
  · unfold GeneratedImpl.build_stmts
    simp

/-- C8 witness: the identity mode evaluated on a struct with no attributes. -/
theorem c8_identity_mode_build_returns_self_witness :
    system_desc_name c8w_ast = .ok none
    ∧ impl_system_desc c8w_ast = .ok ⟨none, none, [], [], .selfValue⟩
    ∧ (GeneratedImpl.mk none none [] [] .selfValue).build_stmts = [BuildStmt.setup] :=
  ⟨rfl, (c8_identity_mode_build_returns_self c8w_ast [] rfl rfl).1,
    (c8_identity_mode_build_returns_self c8w_ast [] rfl rfl).2⟩

/-- C9 counterexample: the computed field `reader: ReaderId<UiEvent, AppEvent>`
is declared with a generic path type whose first angle-bracketed argument is
a type, yet reader-registration synthesis aborts with the first-generic-
parameter diagnostic, because the code accepts the first argument only when
it is the sole argument (an `End` pair of the argument list). -/
theorem c9_two_parameter_generic_aborts :
    field_computation_expressions c9_sdf =
      .error (event_type_first_param_err ("reader"))
    ∧ c9_field.ty = ty_reader_id [.tyPath path_ui_event, .tyPath path_app_event] false
    ∧ [GenericArgument.tyPath path_ui_event, GenericArgument.tyPath path_app_event].head? =
        some (.tyPath path_ui_event) :=
  ⟨rfl, rfl, rfl⟩

theorem event_type_first_param_err_mentions (n : String) :
    mentions (event_type_first_param_err n) n :=
  ⟨("Expected `"), ("` first generic parameter to be a type."), rfl⟩

theorem event_type_params_err_mentions (n : String) :
    mentions (event_type_params_err n) n :=
  ⟨("Expected `"), ("` field to have type parameters."), rfl⟩

theorem event_type_last_segment_err_mentions (n : String) :
    mentions (event_type_last_segment_err n) n :=
  ⟨("Expected `"), ("` field last segment to exist."), rfl⟩

theorem event_type_not_path_err_mentions (n : String) :
    mentions (event_type_not_path_err n) n :=
  ⟨("Expected `"), ("` field type to be Type Path."), rfl⟩

theorem event_type_path_of_isOk (n : String) (ty : RustType) :
    (event_type_path_of n ty).isOk = valid_event_reader_ty ty := by
  cases ty with
  | otherTy => rfl
  | path p =>
    unfold event_type_path_of valid_event_reader_ty
    simp only []
    cases hl : punct_last p.segments p.trailing with
    | none => rfl
    | some pair =>
      cases pair with
      | punctuated a => rfl
      | endPair seg =>
        cases seg with
        | mk ident arguments =>
          simp only [PathSegment.arguments]
          cases arguments with
          | noArgs => rfl
          | parenthesized => rfl
          | angleBracketed args args_trailing =>
            simp only []
            cases hf : punct_first args args_trailing with
            | none => rfl
            | some pr =>
              cases pr with
              | punctuated a => rfl
              | endPair g =>
                cases g with
                | tyPath path => rfl
                | tyOther => rfl
                | otherArg => rfl

theorem event_type_path_of_error_mentions (n : String) (ty : RustType) (e : String)
    (h : event_type_path_of n ty = .error e) : mentions e n := by
  unfold event_type_path_of at h
  split at h
  · split at h
    · split at h
      · split at h
        · exact Except.noConfusion h
        · injection h with h'
          rw [← h']
          exact event_type_first_param_err_mentions n
      · injection h with h'
        rw [← h']
        exact event_type_params_err_mentions n
    · injection h with h'
      rw [← h']
      exact event_type_last_segment_err_mentions n
  · injection h with h'
    rw [← h']
    exact event_type_not_path_err_mentions n

theorem field_computations_fold_isOk (m : List FieldMapping) :
    (field_computations_fold m).isOk = true ↔
      ∀ fm ∈ m, ∀ field, fm.field_variant = .compute (.readerId field) →
        compute_ok field = true := by
  induction m with
  | nil => simp [field_computations_fold, Except.isOk, Except.toBool]
  | cons fm rest ih =>
    unfold field_computations_fold
    split
    next _ field heq =>
      split
      next _ e hn =>
        simp only [Except.isOk, Except.toBool, Bool.false_eq_true, false_iff]
        intro hall
        have hc := hall fm (List.mem_cons_self fm rest) field heq
        unfold compute_ok at hc
        rw [hn] at hc
        exact Bool.noConfusion hc
      next _ field_name hn =>
        split
        next _ e hp =>
          simp only [Except.isOk, Except.toBool, Bool.false_eq_true, false_iff]
          intro hall
          have hc := hall fm (List.mem_cons_self fm rest) field heq
          unfold compute_ok at hc
          rw [hn, ← event_type_path_of_isOk field_name field.ty, hp] at hc
          exact Bool.noConfusion hc
        next _ path hp =>
          split
          next _ e hr =>
            simp only [Except.isOk, Except.toBool, Bool.false_eq_true, false_iff]
            intro hall
            have ht : ∀ fm2 ∈ rest, ∀ field2,
                fm2.field_variant = .compute (.readerId field2) →
                  compute_ok field2 = true :=
              fun fm2 hm2 field2 heq2 =>
                hall fm2 (List.mem_cons_of_mem fm hm2) field2 heq2
            have hko := ih.mpr ht
            rw [hr] at hko
            exact Bool.noConfusion hko
          next _ rest_stmts hr =>
            simp only [Except.isOk, Except.toBool, true_iff]
            intro fm2 hm2 field2 heq2
            rcases List.mem_cons.mp hm2 with he | hm3
            · subst he
              have heq3 : FieldVariant.compute (.readerId field) =
                  .compute (.readerId field2) := heq.symm.trans heq2
              cases heq3
              unfold compute_ok
              rw [hn, ← event_type_path_of_isOk field_name field.ty, hp]
              rfl
            · have hko : (field_computations_fold rest).isOk = true := by
                rw [hr]
                rfl
              exact ih.mp hko fm2 hm3 field2 heq2
    next _ hne =>
      rw [ih]
      constructor
      · intro hall fm2 hm2 field2 heq2
        rcases List.mem_cons.mp hm2 with he | hm3
        · subst he
          exact absurd heq2 (fun hh => hne field2 hh)
        · exact hall fm2 hm3 field2 heq2
      · intro hall fm2 hm2 field2 heq2
        exact hall fm2 (List.mem_cons_of_mem fm hm2) field2 heq2

theorem field_computations_fold_error (m : List FieldMapping) (e : String)
    (h : field_computations_fold m = .error e) :
    ∃ fm ∈ m, ∃ field, fm.field_variant = .compute (.readerId field) ∧
      compute_ok field = false ∧
      (compute_field_name field = .error e ∨
        ∃ n, compute_field_name field = .ok n ∧
          event_type_path_of n field.ty = .error e ∧ mentions e n) := by
  induction m generalizing e with
  | nil => exact Except.noConfusion h
  | cons fm rest ih =>
    unfold field_computations_fold at h
    split at h
    next _ field heq =>
      split at h
      next _ en hn =>
        injection h with h'
        subst h'
        refine ⟨fm, List.mem_cons_self fm rest, field, heq, ?_, Or.inl hn⟩
        unfold compute_ok
        rw [hn]
        rfl
      next _ field_name hn =>
        split at h
        next _ ep hp =>
          injection h with h'
          subst h'
          refine ⟨fm, List.mem_cons_self fm rest, field, heq, ?_,
            Or.inr ⟨field_name, hn, hp,
              event_type_path_of_error_mentions field_name field.ty _ hp⟩⟩
          unfold compute_ok
          rw [hn, ← event_type_path_of_isOk field_name field.ty, hp]
          rfl
        next _ path hp =>
          split at h
          next _ er hr =>
            injection h with h'
            subst h'
            obtain ⟨fm2, hm2, field2, heq2, hok2, hor⟩ := ih er hr
            exact ⟨fm2, List.mem_cons_of_mem fm hm2, field2, heq2, hok2, hor⟩
          next _ rest_stmts hr => exact Except.noConfusion h
    next _ hne =>
      obtain ⟨fm2, hm2, rest_ex⟩ := ih e h
      exact ⟨fm2, List.mem_cons_of_mem fm hm2, rest_ex⟩

/-- C9 (amended): reader-registration synthesis succeeds exactly when every
computed field resolves a name and has a path type without trailing
separator whose last segment carries exactly one angle-bracketed argument,
that argument being itself a path type; when it aborts, the abort originates
at a computed field violating that shape, and whenever that field name
resolved, the diagnostic names the field. -/
theorem c9_compute_type_check_characterization (sdf : SystemDescFields) :
    ((field_computation_expressions sdf).isOk = true ↔
      ∀ fm ∈ sdf.field_mappings, ∀ field,
        fm.field_variant = .compute (.readerId field) → compute_ok field = true)
    ∧ ∀ e, field_computation_expressions sdf = .error e →
        ∃ fm ∈ sdf.field_mappings, ∃ field,
          fm.field_variant = .compute (.readerId field) ∧ compute_ok field = false ∧
          (compute_field_name field = .error e ∨
            ∃ n, compute_field_name field = .ok n ∧
              event_type_path_of n field.ty = .error e ∧ mentions e n) :=
  ⟨field_computations_fold_isOk sdf.field_mappings,
    fun e h => field_computations_fold_error sdf.field_mappings e h⟩

/-- C9 witness: the success direction evaluated on a single well-shaped
computed field. -/
theorem c9_compute_type_check_characterization_witness :
    (field_computation_expressions c9w_sdf).isOk = true := by
  refine (c9_compute_type_check_characterization c9w_sdf).1.mpr ?_
  intro fm hfm field heq
  have hfm2 : fm ∈ [(⟨0, FieldVariant.compute (.readerId c6w_field)⟩ : FieldMapping)] := hfm
  rw [List.mem_singleton] at hfm2
  subst hfm2
  have heq2 : FieldVariant.compute (.readerId c6w_field) = .compute (.readerId field) := heq
  cases heq2
  rfl

theorem derive_context_system_desc_name (ast : DeriveInput) (dn : String) :
    (derive_context ast dn).system_desc_name = dn := rfl

theorem derive_context_is_default (ast : DeriveInput) (dn : String) :
    (derive_context ast dn).is_default =
      ((system_desc_fields ast).field_mappings.find? FieldMapping.is_passthrough).isNone := rfl

theorem unnamed_constructor_params_length (fields : List Field) (params : List Param)
    (h : unnamed_constructor_params fields = .ok params) :
    params.length = (fields.filter fun f => !f.is_phantom_data).length := by
  induction fields generalizing params with
  | nil =>
    injection h with h'
    subst h'
    rfl
  | cons field rest ih =>
    unfold unnamed_constructor_params at h
    split at h
    next hpd =>
      rw [List.filter_cons_of_neg (by simp [hpd])]
      exact ih params h
    next hpd =>
      split at h
      next _ e hn => exact Except.noConfusion h
      next _ tn hn =>
        split at h
        next _ e hr => exact Except.noConfusion h
        next _ rest_params hr =>
          injection h with h'
          subst h'
          rw [List.filter_cons_of_pos (by simp [Bool.eq_false_iff.mpr hpd])]
          simp [ih rest_params hr]

theorem named_constructor_params_length (fields : List Field) (params : List Param)
    (h : named_constructor_params fields = .ok params) :
    params.length = (fields.filter fun f => !f.is_phantom_data).length := by
  induction fields generalizing params with
  | nil =>
    injection h with h'
    subst h'
    rfl
  | cons field rest ih =>
    unfold named_constructor_params at h
    split at h
    next hpd =>
      rw [List.filter_cons_of_neg (by simp [hpd])]
      exact ih params h
    next hpd =>
      split at h
      next hident => exact Except.noConfusion h
      next field_name hident =>
        split at h
        next _ e hr => exact Except.noConfusion h
        next _ rest_params hr =>
          injection h with h'
          subst h'
          rw [List.filter_cons_of_pos (by simp [Bool.eq_false_iff.mpr hpd])]
          simp [ih rest_params hr]

theorem field_mappings_of_phantom_invariant (fields : List Field) (i j : Nat) :
    ∀ fm ∈ field_mappings_of fields i j,
      (∀ k f, fm.field_variant = .phantomData k f → f.is_phantom_data = true) ∧
      (∀ k f, fm.field_variant = .passthrough k f → f.is_phantom_data = false) := by
  induction fields generalizing i j with
  | nil =>
    intro fm hm
    exact absurd hm (by simp [field_mappings_of])
  | cons field rest ih =>
    intro fm hm
    unfold field_mappings_of at hm
    split_ifs at hm with h1 h2 h3
    · rcases List.mem_cons.mp hm with he | hm2
      · subst he
        exact ⟨fun k f hkf => FieldVariant.noConfusion hkf,
          fun k f hkf => FieldVariant.noConfusion hkf⟩
      · exact ih (i + 1) j fm hm2
    · rcases List.mem_cons.mp hm with he | hm2
      · subst he
        exact ⟨fun k f hkf => FieldVariant.noConfusion hkf,
          fun k f hkf => FieldVariant.noConfusion hkf⟩
      · exact ih (i + 1) j fm hm2
    · rcases List.mem_cons.mp hm with he | hm2
      · subst he
        refine ⟨fun k f hkf => ?_, fun k f hkf => FieldVariant.noConfusion hkf⟩
        injection hkf with hk hf
        rw [← hf]
        exact h3
      · exact ih (i + 1) (j + 1) fm hm2
    · rcases List.mem_cons.mp hm with he | hm2
      · subst he
        refine ⟨fun k f hkf => FieldVariant.noConfusion hkf, fun k f hkf => ?_⟩
        injection hkf with hk hf
        rw [← hf]
        exact Bool.eq_false_iff.mpr h3
      · exact ih (i + 1) (j + 1) fm hm2

theorem filter_copy_count (m : List FieldMapping)
    (hinv : ∀ fm ∈ m,
      (∀ k f, fm.field_variant = .phantomData k f → f.is_phantom_data = true) ∧
      (∀ k f, fm.field_variant = .passthrough k f → f.is_phantom_data = false)) :
    ((m.filterMap FieldMapping.copy_field?).filter fun f => !f.is_phantom_data).length =
      m.countP FieldMapping.is_passthrough := by
  induction m with
  | nil => rfl
  | cons fm rest ih =>
    have hinv_rest : ∀ fm2 ∈ rest,
        (∀ k f, fm2.field_variant = .phantomData k f → f.is_phantom_data = true) ∧
        (∀ k f, fm2.field_variant = .passthrough k f → f.is_phantom_data = false) :=
      fun fm2 hm2 => hinv fm2 (List.mem_cons_of_mem fm hm2)
    have hhead := hinv fm (List.mem_cons_self fm rest)
    cases hv : fm.field_variant with
    | skipped f =>
      rw [List.filterMap_cons_none (by simp [FieldMapping.copy_field?, hv]),
        List.countP_cons_of_neg FieldMapping.is_passthrough _
          (by simp [FieldMapping.is_passthrough, hv])]
      exact ih hinv_rest
    | compute c =>
      rw [List.filterMap_cons_none (by simp [FieldMapping.copy_field?, hv]),
        List.countP_cons_of_neg FieldMapping.is_passthrough _
          (by simp [FieldMapping.is_passthrough, hv])]
      exact ih hinv_rest
    | phantomData k f =>
      have hpd : f.is_phantom_data = true := hhead.1 k f hv
      rw [List.filterMap_cons_some (by simp [FieldMapping.copy_field?, hv] :
          FieldMapping.copy_field? fm = some f),
        List.filter_cons_of_neg (by simp [hpd]),
        List.countP_cons_of_neg FieldMapping.is_passthrough _
          (by simp [FieldMapping.is_passthrough, hv])]
      exact ih hinv_rest
    | passthrough k f =>
      have hpd : f.is_phantom_data = false := hhead.2 k f hv
      rw [List.filterMap_cons_some (by simp [FieldMapping.copy_field?, hv] :
          FieldMapping.copy_field? fm = some f),
        List.filter_cons_of_pos (by simp [hpd]),
        List.countP_cons_of_pos FieldMapping.is_passthrough _
          (by simp [FieldMapping.is_passthrough, hv])]
      simp [ih hinv_rest]

theorem impl_constructor_parameters_length (ast : DeriveInput) (dn : String)
    (params : List Param)
    (h : impl_constructor_parameters (derive_context ast dn) = .ok params) :
    params.length =
      (system_desc_fields ast).field_mappings.countP FieldMapping.is_passthrough := by
  have hcc := filter_copy_count (field_mappings_of ast.fields.fieldList 0 0)
    (field_mappings_of_phantom_invariant ast.fields.fieldList 0 0)
  unfold impl_constructor_parameters at h
  rw [derive_context_system_desc_fields, system_desc_fields_fields] at h
  by_cases hftc : ((field_mappings_of ast.fields.fieldList 0 0).filterMap
      FieldMapping.copy_field?).isEmpty = true
  · rw [if_pos hftc] at h
    injection h with h'
    subst h'
    rw [system_desc_fields_field_mappings, ← hcc]
    rw [List.isEmpty_iff] at hftc
    rw [hftc]
    rfl
  · rw [if_neg hftc] at h
    by_cases hnamed : ast.is_named = true
    · rw [if_pos hnamed] at h
      try simp only [] at h
      rw [system_desc_fields_field_mappings, ← hcc]
      exact named_constructor_params_length _ params h
    · rw [if_neg hnamed] at h
      try simp only [] at h
      rw [system_desc_fields_field_mappings, ← hcc]
      exact unnamed_constructor_params_length _ params h

/-- C10: in non-identity mode the generated descriptor constructor is a
parameterless `Default` impl exactly when no passthrough field exists, and a
`new` function with one parameter per passthrough field when at least one
passthrough field exists. -/
theorem c10_constructor_default_vs_new (ast : DeriveInput) (dn : String)
    (gen : GeneratedImpl)
    (hname : system_desc_name ast = .ok (some dn))
    (hgen : impl_system_desc ast = .ok gen) :
    constructor_shape_spec ast dn gen := by
  unfold impl_system_desc at hgen
  rw [hname] at hgen
  simp only [Option.isNone_some, Bool.false_eq_true, if_false, Option.getD_some] at hgen
  rcases hC : impl_constructor (derive_context ast dn) with e | ctor
  · simp only [hC] at hgen
    exact Except.noConfusion hgen
  · simp only [hC] at hgen
    rcases hCall : call_system_constructor (derive_context ast dn) with e | call
    · simp only [hCall] at hgen
      exact Except.noConfusion hgen
    · simp only [hCall] at hgen
      rcases hIns : resource_insertion_expressions ast with e | ins
      · simp only [hIns] at hgen
        exact Except.noConfusion hgen
      · simp only [hIns] at hgen
        rcases hComp : field_computation_expressions
            (derive_context ast dn).system_desc_fields with e | comps
        · simp only [hComp] at hgen
          exact Except.noConfusion hgen
        · simp only [hComp] at hgen
          injection hgen with hgen'
          subst hgen'
          unfold impl_constructor at hC
          rcases hP : impl_constructor_parameters (derive_context ast dn) with e | params
          · simp only [hP] at hC
            exact Except.noConfusion hC
          · simp only [hP] at hC
            rcases hB : impl_constructor_body (derive_context ast dn) with e | body
            · simp only [hB] at hC
              exact Except.noConfusion hC
            · simp only [hB] at hC
              unfold constructor_shape_spec
              refine ⟨?_, ?_⟩
              · intro hcount0
                have hdef : ((system_desc_fields ast).field_mappings.find?
                    FieldMapping.is_passthrough).isNone = true := by
                  rw [Option.isNone_iff_eq_none, List.find?_eq_none]
                  intro x hx
                  simpa using List.countP_eq_zero.mp hcount0 x hx
                rw [derive_context_is_default] at hC
                rw [hdef] at hC
                simp only [if_true, derive_context_system_desc_name] at hC
                injection hC with hC'
                subst hC'
                exact ⟨body, rfl⟩
              · intro hcountpos
                have hdef : ((system_desc_fields ast).field_mappings.find?
                    FieldMapping.is_passthrough).isNone = false := by
                  obtain ⟨x, hx, hpx⟩ := List.countP_pos_iff.mp hcountpos
                  cases hf : (system_desc_fields ast).field_mappings.find?
                      FieldMapping.is_passthrough with
                  | some y => rfl
                  | none => exact absurd hpx (List.find?_eq_none.mp hf x hx)
                rw [derive_context_is_default] at hC
                rw [hdef] at hC
                simp only [Bool.false_eq_true, if_false, derive_context_system_desc_name] at hC
                injection hC with hC'
                subst hC'
                exact ⟨params, body, rfl, impl_constructor_parameters_length ast dn params hP⟩

/-- C10 witness: the constructor-form rule evaluated on a named struct with
one passthrough field. -/
theorem c10_constructor_default_vs_new_witness :
    constructor_shape_spec c10w_ast ("WitnessSystemDesc")
      ⟨some ⟨("WitnessSystemDesc"), .named [⟨some ("count"), ty_u32, []⟩]⟩,
        some (.newImpl ("WitnessSystemDesc") [⟨("count"), ty_u32⟩]
          (.recordBody ("WitnessSystemDesc") [.shorthand ("count")])),
        [], [], .structLiteral ("WitnessSystem") [.fromSelf ("count")]⟩ :=
  c10_constructor_default_vs_new c10w_ast ("WitnessSystemDesc") _ rfl rfl

end Amethyst
